import Mathlib

/-!
Verification development for the cloudinary-dump tool (src/main.go).

The file shallowly embeds the pieces of main.go the properties talk about:
the asset catalog and its total size, the paginated enumeration loop
(collectAllAssets), the per-asset fetch (downloadAsset), the distributor,
worker and aggregator goroutines of Dump, and the flag handling of main.
Channels are modelled by the sequences of values delivered on them, the
wall clock of the aggregator by an oracle deciding when the once-per-second
emission condition holds, and the filesystem by a map from paths to
entries.
-/

/-- Lean image of the Go struct api.BriefAssetResult, restricted to the
fields src/main.go reads: AssetID (used in the worker's fatal log message),
PublicID (the default file-name template field), SecureURL (the download
source) and Bytes (the size). The Go int is modelled as Int. -/
structure BriefAssetResult where
  assetID : String
  publicID : String
  secureURL : String
  bytes : Int
deriving DecidableEq

/-- Lean image of the Go type assetList = []api.BriefAssetResult. -/
abbrev assetList := List BriefAssetResult

/-- Wrapping of an integer into the range of Go's 64-bit signed int: Go's
int addition wraps around at the boundaries -2^63 and 2^63, written below
with the explicit constants 9223372036854775808 = 2^63 and
18446744073709551616 = 2^64. -/
def wrap64 (n : Int) : Int :=
  (n + 9223372036854775808) % 18446744073709551616 - 9223372036854775808

/-- Embedding of assetList.TotalSize (main.go lines 43-49): a running total
initialised to 0 and increased by a[i].Bytes while i ranges over the list
indices in order; the accumulation is Go int addition, which wraps at the
64-bit signed boundary. -/
def totalSize (a : assetList) : Int :=
  a.foldl (fun acc x => wrap64 (acc + x.bytes)) 0

/-- Response of the listing service to one page request: either a transport
error (the non-nil err returned by cld.Admin.Assets) or a page carrying its
assets, its in-band Error.Message and whether its NextCursor is nonempty.
The loop in collectAllAssets issues requests strictly in sequence, each
with the cursor returned by the previous response, so a service behaviour
is modelled as the list of its successive responses. -/
inductive PageResp where
  | transportErr (e : String)
  | page (assets : List BriefAssetResult) (errMsg : String) (hasNext : Bool)
deriving DecidableEq

/-- Outcome of the enumeration loop: a normal return of the accumulated
assets, an error return, a process abort raised by log.Panic, or the case
that the service gave no response to a pending request (unreachable for a
service that answers every request). -/
inductive CollectResult where
  | ok (l : List BriefAssetResult)
  | err (e : String)
  | panicked (msg : String)
  | noResponse
deriving DecidableEq

/-- Embedding of the body of (*Downloader).collectAllAssets (main.go lines
51-72): a transport error is returned as the error; a page whose
Error.Message is nonempty aborts the process via log.Panic; otherwise the
page's assets are appended to the accumulator and the loop continues
exactly when the returned NextCursor is nonempty. -/
def collectLoop : List PageResp → List BriefAssetResult → CollectResult
  | [], _ => CollectResult.noResponse
  | PageResp.transportErr e :: _, _ => CollectResult.err e
  | PageResp.page a em hn :: rest, acc =>
    if em = "" then
      if hn then collectLoop rest (acc ++ a) else CollectResult.ok (acc ++ a)
    else CollectResult.panicked em

/-- Embedding of collectAllAssets: the loop starts with the empty cursor
(request index 0) and an empty accumulator. -/
def collectAllAssets (resps : List PageResp) : CollectResult :=
  collectLoop resps []

/-- Embedding of the enumeration call inside Dump (main.go lines 130-133):
an error returned by collectAllAssets is wrapped with context before Dump
returns it. -/
def dumpCollect (resps : List PageResp) : CollectResult :=
  match collectAllAssets resps with
  | CollectResult.err e =>
      CollectResult.err ("unable to collect information about assets: " ++ e)
  | r => r

/-- Dump reaches the channel setup and launches the distributor, the
workers and the aggregator (main.go lines 135-168) exactly when the
enumeration returned normally. -/
def dumpStartsDownloads (resps : List PageResp) : Bool :=
  match dumpCollect resps with
  | CollectResult.ok _ => true
  | _ => false

/-- Test for an error-return outcome of the enumeration. -/
def isErrResult : CollectResult → Bool
  | CollectResult.err _ => true
  | _ => false

/-- Service responses on which the enumeration loop continues normally: a
page with an empty Error.Message and a nonempty NextCursor. -/
def goodPageB : PageResp → Bool
  | PageResp.transportErr _ => false
  | PageResp.page _ em hn => (em == "") && hn

/-- Encoding of a service that presents the given page contents in order:
every page reports no error, all but the last report a nonempty NextCursor
and the last reports the empty one. -/
def mkResps : List (List BriefAssetResult) → List PageResp
  | [] => []
  | [p] => [PageResp.page p "" false]
  | p :: rest => PageResp.page p "" true :: mkResps rest

/-- Sequence of values the distributor goroutine sends on the pending
channel (main.go lines 138-143): assets[idx] for idx ranging over the
indices of the catalog, in order. -/
def distributorSends (assets : assetList) : List BriefAssetResult :=
  List.ofFn assets.get

/-- Observable behaviour of the distributor goroutine: the values it sends
and whether it closes the pending channel after them. -/
structure DistributorRun where
  sent : List BriefAssetResult
  closedAfter : Bool

/-- Embedding of the distributor goroutine of Dump: it sends every catalog
entry by index and then executes close(pending). -/
def distributorRun (assets : assetList) : DistributorRun :=
  ⟨distributorSends assets, true⟩

/-- Observable outcome of the aggregator goroutine (main.go lines 144-165)
on a stream of deliveries: the progress lines it emitted, each recorded as
the pair of the completed count and the total count it prints, whether it
left its loop and closed the finished channel, and how many completions it
received. -/
structure AggOutcome where
  emissions : List (Nat × Nat)
  signaled : Bool
  received : Nat
deriving DecidableEq

/-- Embedding of the aggregator goroutine loop: the list argument holds the
values received in order from the completedAssets channel; closed says
whether that channel is closed after them (in Dump nothing ever closes it);
emitAt abstracts the wall clock, deciding whether the once-per-second
condition holds while the n-th completion is handled. Each iteration
appends the received asset to the completed list, possibly emits a progress
line, and leaves the loop - reaching close(finished) - exactly when the
completed count equals the total; a run that consumes every delivery of an
unclosed channel stays blocked in the receive and never signals. -/
def aggRun (total : Nat) (emitAt : Nat → Bool) (closed : Bool) :
    List BriefAssetResult → Nat → AggOutcome
  | [], n => ⟨[], closed, n⟩
  | _ :: rest, n =>
    let ems : List (Nat × Nat) := if emitAt (n + 1) then [(n + 1, total)] else []
    if n + 1 = total then ⟨ems, true, n + 1⟩
    else
      let r := aggRun total emitAt closed rest (n + 1)
      ⟨ems ++ r.emissions, r.signaled, r.received⟩

/-- Number of workers launched by Dump (main.go lines 166-168): the loop
for i := 0; i < Concurrency; i++ runs max(Concurrency, 0) times, which is
exactly Int.toNat. -/
def numWorkers (c : Int) : Nat := c.toNat

/-- Deliveries the worker pool can place on the completedAssets channel in
a run where every fetch succeeds: the pending channel carries exactly the
catalog and is then closed, each item is taken from it by exactly one
worker and forwarded once, so with at least one worker the delivered
sequence is some permutation of the catalog, and with zero workers nothing
is ever delivered. -/
def validDeliveries (w : Nat) (catalog ds : List BriefAssetResult) : Prop :=
  if w = 0 then ds = [] else ds.Perm catalog

/-- Dump returns exactly when the receive on finished unblocks, that is,
when the aggregator left its loop and executed close(finished) (main.go
lines 164 and 169-170); the completedAssets channel itself is never closed
anywhere in Dump, whence the literal false below. -/
def dumpReturns (catalog : assetList) (emitAt : Nat → Bool)
    (ds : List BriefAssetResult) : Bool :=
  (aggRun catalog.length emitAt false ds 0).signaled

/-- Filesystem entry at a path as seen by os.Stat: an existing file with
its content bytes, an absent entry (os.Stat returns an error for which
os.IsNotExist holds), or a path where os.Stat fails with some other
error. -/
inductive FSEntry where
  | file (content : List Nat)
  | absent
  | statErr (e : String)
deriving DecidableEq

/-- Return value of downloadAsset, one constructor per return statement of
the Go function (main.go lines 88-112). absenceCheckFailed carries the
error value os.Stat produced: none models the case that os.Stat succeeded
because the destination exists, where the Go code wraps a nil error into
its message. Creation and copying are modelled as succeeding; their failure
modes are outside the properties stated below, which only exercise the
branches up to and including the existence check. -/
inductive FetchResult where
  | ok
  | requestFailed (e : String)
  | renderFailed (e : String)
  | absenceCheckFailed (statE : Option String)
deriving DecidableEq

/-- Outcome of one downloadAsset call: the returned value, the filesystem
after the call, and the number of response-body bytes written to it. -/
structure FetchOutcome where
  result : FetchResult
  fs : String → FSEntry
  bytesWritten : Nat

/-- Embedding of path.Join for a folder and a file name. Go's path.Join
additionally cleans the result; nothing below depends on cleaning. -/
def pathJoin (dir name : String) : String := dir ++ "/" ++ name

/-- Embedding of (*Downloader).downloadAsset (main.go lines 88-112): first
http.Get on the asset's SecureURL (net yields the body bytes or a transport
error), then the template render of the file name, then os.Stat on the
joined path. The function proceeds to create the file and copy the body
into it only when os.Stat reports that the destination does not exist; in
every other case - including the case that the destination already exists -
it returns the "checking file absence failed" error, leaving the filesystem
untouched and writing nothing. -/
def downloadAsset (net : String → Except String (List Nat))
    (render : BriefAssetResult → Except String String)
    (targetFolder : String) (fs : String → FSEntry)
    (asset : BriefAssetResult) : FetchOutcome :=
  match net asset.secureURL with
  | Except.error e => ⟨FetchResult.requestFailed e, fs, 0⟩
  | Except.ok body =>
    match render asset with
    | Except.error e => ⟨FetchResult.renderFailed e, fs, 0⟩
    | Except.ok name =>
      let full := pathJoin targetFolder name
      match fs full with
      | FSEntry.absent =>
          ⟨FetchResult.ok, fun p => if p = full then FSEntry.file body else fs p,
            body.length⟩
      | FSEntry.file _ => ⟨FetchResult.absenceCheckFailed none, fs, 0⟩
      | FSEntry.statErr e => ⟨FetchResult.absenceCheckFailed (some e), fs, 0⟩

/-- Outcome of the Dump call as observed by main: Dump returned a value (ok
or an error), Dump aborted the process from inside (log.Fatalf in a worker
or log.Panic in the enumeration), or Dump never returned. -/
inductive DumpOutcome where
  | returned (r : Except String Unit)
  | aborted (msg : String)
  | neverReturns

/-- Process-level result of running main. -/
inductive ProcExit where
  | exitCode (n : Nat)
  | fatalAbort (msg : String)
  | hang
deriving DecidableEq

/-- Embedding of main (main.go lines 177-189): an empty -u value or the
help flag prints the flag defaults and exits with status 1; otherwise main
calls Dump and discards its return value, so whenever Dump itself returns -
with or without an error - main falls off the end and the process exits
normally with status 0. -/
def mainRun (cloudinaryURL : String) (printHelp : Bool)
    (dump : DumpOutcome) : ProcExit :=
  if cloudinaryURL = "" ∨ printHelp = true then ProcExit.exitCode 1
  else
    match dump with
    | DumpOutcome.aborted m => ProcExit.fatalAbort m
    | DumpOutcome.neverReturns => ProcExit.hang
    | DumpOutcome.returned _ => ProcExit.exitCode 0

/-- Sample asset used for concrete evaluations. -/
def sampleAsset : BriefAssetResult := ⟨"a1", "p1", "u1", 10⟩

/-- Second sample asset used for concrete evaluations. -/
def sampleAsset2 : BriefAssetResult := ⟨"a2", "p2", "u2", 20⟩

/-- Sample network in which every URL serves a two-byte body. -/
def sampleNet : String → Except String (List Nat) := fun _ => Except.ok [7, 7]

/-- Sample renderer matching the default template, which renders the
asset's PublicID. -/
def sampleRender : BriefAssetResult → Except String String :=
  fun a => Except.ok a.publicID

/-- Sample filesystem on which the destination of sampleAsset already
exists with known contents. -/
def sampleFS : String → FSEntry :=
  fun p => if p = "dump/p1" then FSEntry.file [1, 2, 3] else FSEntry.absent

/-- Helper: wrapping is the identity on values already inside the int64
range. -/
theorem wrap64_eq_self (n : Int) (h1 : -9223372036854775808 ≤ n)
    (h2 : n < 9223372036854775808) : wrap64 n = n := by
  unfold wrap64
  rw [Int.emod_eq_of_lt (by omega) (by omega)]
  omega

/-- Helper: with nonnegative byte sizes and the total staying below 2^63,
the wrapping accumulation from any nonnegative start never overflows and
equals plain addition of the sizes. -/
theorem totalSize_foldl_eq (l : assetList) :
    ∀ acc : Int, 0 ≤ acc → (∀ x ∈ l, 0 ≤ x.bytes) →
      acc + (l.map (fun x => x.bytes)).sum < 9223372036854775808 →
      l.foldl (fun a x => wrap64 (a + x.bytes)) acc
        = acc + (l.map (fun x => x.bytes)).sum := by
  induction l with
  | nil => intro acc _ _ _; simp
  | cons x rest ih =>
    intro acc hacc hpos hfit
    have hx : 0 ≤ x.bytes := hpos x (List.mem_cons_self x rest)
    have hrest : ∀ y ∈ rest, 0 ≤ y.bytes :=
      fun y hy => hpos y (List.mem_cons_of_mem x hy)
    have hsum : 0 ≤ (rest.map (fun y => y.bytes)).sum := by
      apply List.sum_nonneg
      intro b hb
      obtain ⟨y, hy, hyb⟩ := List.mem_map.mp hb
      rw [← hyb]
      exact hrest y hy
    have hfit' : acc + x.bytes + (rest.map (fun y => y.bytes)).sum
        < 9223372036854775808 := by
      simp only [List.map_cons, List.sum_cons] at hfit
      omega
    have hw : wrap64 (acc + x.bytes) = acc + x.bytes :=
      wrap64_eq_self (acc + x.bytes) (by omega) (by omega)
    simp only [List.foldl_cons, List.map_cons, List.sum_cons, hw]
    rw [ih (acc + x.bytes) (by omega) hrest (by omega)]
    ring

/-- C7 (amended): TotalSize accumulates with Go's wrapping 64-bit signed
int addition; whenever every descriptor's byte size is nonnegative and the
total stays below 2^63 - as for actual asset sizes - TotalSize equals the
mathematical sum of the byte sizes, and TotalSize of the empty list is
0. -/
theorem totalSize_eq_sum (l : assetList)
    (hpos : (l.all fun x => decide (0 ≤ x.bytes)) = true)
    (hfit : (l.map (fun x => x.bytes)).sum < 9223372036854775808) :
    totalSize l = (l.map (fun x => x.bytes)).sum ∧ totalSize ([] : assetList) = 0 := by
  have hpos' : ∀ x ∈ l, 0 ≤ x.bytes := by
    simpa [List.all_eq_true, decide_eq_true_eq] using hpos
  constructor
  · have h := totalSize_foldl_eq l 0 le_rfl hpos' (by simpa using hfit)
    simpa [totalSize] using h
  · rfl

/-- Counterexample for C7 as stated: two assets of 2^62 bytes each drive
the wrapping int accumulation of TotalSize to -2^63, which differs from
the mathematical sum 2^63 of the byte sizes. -/
theorem totalSize_wraps_on_overflow :
    totalSize [⟨"a1", "p1", "u1", 4611686018427387904⟩,
               ⟨"a2", "p2", "u2", 4611686018427387904⟩]
      = -9223372036854775808 ∧
    (([⟨"a1", "p1", "u1", 4611686018427387904⟩,
       ⟨"a2", "p2", "u2", 4611686018427387904⟩] : assetList).map
        (fun x => x.bytes)).sum = 9223372036854775808 ∧
    totalSize [⟨"a1", "p1", "u1", 4611686018427387904⟩,
               ⟨"a2", "p2", "u2", 4611686018427387904⟩]
      ≠ (([⟨"a1", "p1", "u1", 4611686018427387904⟩,
           ⟨"a2", "p2", "u2", 4611686018427387904⟩] : assetList).map
          (fun x => x.bytes)).sum := by
  refine ⟨by decide, by decide, by decide⟩

/-- Witness for the amended C7 at two small assets. -/
theorem totalSize_eq_sum_witness :
    ((([sampleAsset, sampleAsset2] : assetList).all fun x => decide (0 ≤ x.bytes)) = true ∧
      (([sampleAsset, sampleAsset2] : assetList).map (fun x => x.bytes)).sum
        < 9223372036854775808) ∧
    (totalSize [sampleAsset, sampleAsset2]
        = (([sampleAsset, sampleAsset2] : assetList).map (fun x => x.bytes)).sum ∧
      totalSize ([] : assetList) = 0) :=
  ⟨⟨by decide, by decide⟩,
    totalSize_eq_sum [sampleAsset, sampleAsset2] (by decide) (by decide)⟩

/-- C6: the distributor sends exactly the catalog, element by element in
catalog order, and closes the pending channel afterwards; in particular it
produces exactly len(catalog) items and no descriptor is skipped or
duplicated. -/
theorem distributor_sends_catalog_in_order (catalog : assetList) :
    (distributorRun catalog).sent = catalog ∧
    (distributorRun catalog).closedAfter = true ∧
    (distributorRun catalog).sent.length = catalog.length ∧
    ∀ a : BriefAssetResult,
      (distributorRun catalog).sent.count a = catalog.count a := by
  have h : (distributorRun catalog).sent = catalog := by
    simp [distributorRun, distributorSends, List.ofFn_get]
  exact ⟨h, rfl, by rw [h], fun a => by rw [h]⟩

/-- Helper: running the enumeration loop over pages that all report no
error, where all but the last report a further page and the last reports
none, returns the accumulator followed by the concatenation of the pages
and consumes no response past the first empty next-cursor. -/
theorem collectLoop_mkResps (extra : List PageResp) :
    ∀ ps : List (List BriefAssetResult), ps ≠ [] →
      ∀ acc : List BriefAssetResult,
        collectLoop (mkResps ps ++ extra) acc = CollectResult.ok (acc ++ ps.flatten) := by
  intro ps
  induction ps with
  | nil => intro h; exact absurd rfl h
  | cons p rest ih =>
    intro _ acc
    cases rest with
    | nil => simp [mkResps, collectLoop]
    | cons q rest2 =>
      have h1 : mkResps (p :: q :: rest2) ++ extra
          = PageResp.page p "" true :: (mkResps (q :: rest2) ++ extra) := rfl
      rw [h1]
      have h2 : collectLoop
            (PageResp.page p "" true :: (mkResps (q :: rest2) ++ extra)) acc
          = collectLoop (mkResps (q :: rest2) ++ extra) (acc ++ p) := by
        simp [collectLoop]
      rw [h2, ih (by simp) (acc ++ p)]
      simp

/-- C5: for every catalog split across pages, collectAllAssets starting
from the empty cursor returns exactly the concatenation of the pages in
service order - K descriptors in page-concatenation order for a catalog of
size K - and terminates exactly at the first empty next-cursor, leaving any
later responses unconsumed. -/
theorem collectAllAssets_returns_concatenation
    (ps : List (List BriefAssetResult)) (extra : List PageResp) (h : ps ≠ []) :
    collectAllAssets (mkResps ps ++ extra) = CollectResult.ok ps.flatten ∧
    ps.flatten.length = (ps.map List.length).sum := by
  constructor
  · simpa [collectAllAssets] using collectLoop_mkResps extra ps h []
  · exact List.length_flatten ps

/-- Witness for C5 at two pages of one asset each, with further unconsumed
responses absent. -/
theorem collectAllAssets_returns_concatenation_witness :
    (([[sampleAsset], [sampleAsset2]] : List (List BriefAssetResult)) ≠ []) ∧
    (collectAllAssets (mkResps [[sampleAsset], [sampleAsset2]] ++ [])
        = CollectResult.ok ([[sampleAsset], [sampleAsset2]] : List (List BriefAssetResult)).flatten ∧
      (([[sampleAsset], [sampleAsset2]] : List (List BriefAssetResult)).flatten).length
        = (([[sampleAsset], [sampleAsset2]] : List (List BriefAssetResult)).map List.length).sum) :=
  ⟨by decide,
    collectAllAssets_returns_concatenation [[sampleAsset], [sampleAsset2]] [] (by decide)⟩

/-- Helper: responses satisfying goodPageB keep the enumeration loop going
and only grow the accumulator. -/
theorem collectLoop_good_prefix (tail : List PageResp) :
    ∀ good : List PageResp, good.all goodPageB = true →
      ∀ acc : List BriefAssetResult, ∃ acc2,
        collectLoop (good ++ tail) acc = collectLoop tail acc2 := by
  intro good
  induction good with
  | nil => intro _ acc; exact ⟨acc, rfl⟩
  | cons r rest ih =>
    intro hall acc
    have h1 : goodPageB r = true ∧ rest.all goodPageB = true := by
      simpa [List.all_cons, Bool.and_eq_true] using hall
    cases r with
    | transportErr e => simp [goodPageB] at h1
    | page a em hn =>
      have h2 : em = "" ∧ hn = true := by
        simpa [goodPageB, Bool.and_eq_true, beq_iff_eq] using h1.1
      obtain ⟨hem, hhn⟩ := h2
      subst hem
      subst hhn
      have h3 : collectLoop ((PageResp.page a "" true :: rest) ++ tail) acc
          = collectLoop (rest ++ tail) (acc ++ a) := by
        simp [collectLoop]
      rw [h3]
      exact ih h1.2 (acc ++ a)

/-- C3 (amended): after any run of error-free pages announcing more to
come, a transport error on the next page request aborts the enumeration at
once and is returned - wrapped with context by Dump - to Dump's caller, and
no downloads begin; an in-band service error message on the next page
likewise aborts at once before any downloads, but through a log.Panic of
the message, not through an error return. -/
theorem enumeration_failure_aborts (good rest : List PageResp) (e m : String)
    (a : List BriefAssetResult) (hn : Bool)
    (hgood : good.all goodPageB = true) (hm : m ≠ "") :
    dumpCollect (good ++ PageResp.transportErr e :: rest)
      = CollectResult.err ("unable to collect information about assets: " ++ e) ∧
    dumpStartsDownloads (good ++ PageResp.transportErr e :: rest) = false ∧
    dumpCollect (good ++ PageResp.page a m hn :: rest) = CollectResult.panicked m ∧
    dumpStartsDownloads (good ++ PageResp.page a m hn :: rest) = false := by
  obtain ⟨acc1, h1⟩ :=
    collectLoop_good_prefix (PageResp.transportErr e :: rest) good hgood []
  obtain ⟨acc2, h2⟩ :=
    collectLoop_good_prefix (PageResp.page a m hn :: rest) good hgood []
  have he : collectAllAssets (good ++ PageResp.transportErr e :: rest)
      = CollectResult.err e := by
    rw [collectAllAssets, h1]; rfl
  have hp : collectAllAssets (good ++ PageResp.page a m hn :: rest)
      = CollectResult.panicked m := by
    rw [collectAllAssets, h2]
    simp [collectLoop, hm]
  refine ⟨?_, ?_, ?_, ?_⟩ <;>
    simp [dumpCollect, dumpStartsDownloads, he, hp]

/-- Counterexample for C3 as stated: a first page carrying the in-band
error message boom ends the enumeration in a log.Panic of the message; the
outcome Dump produces for it is not an error return at all, so this
enumeration failure is not surfaced to the caller as a wrapped error. -/
theorem collect_inband_error_panics :
    dumpCollect [PageResp.page [] "boom" false] = CollectResult.panicked "boom" ∧
    isErrResult (dumpCollect [PageResp.page [] "boom" false]) = false := by
  exact ⟨rfl, rfl⟩

/-- Witness for the amended C3 at one good page followed by each kind of
failing response. -/
theorem enumeration_failure_aborts_witness :
    (([PageResp.page [sampleAsset] "" true].all goodPageB = true) ∧
      ("oops" : String) ≠ "") ∧
    (dumpCollect ([PageResp.page [sampleAsset] "" true] ++ PageResp.transportErr "netdown" :: [])
        = CollectResult.err ("unable to collect information about assets: " ++ "netdown") ∧
      dumpStartsDownloads
        ([PageResp.page [sampleAsset] "" true] ++ PageResp.transportErr "netdown" :: []) = false ∧
      dumpCollect ([PageResp.page [sampleAsset] "" true] ++ PageResp.page [] "oops" false :: [])
        = CollectResult.panicked "oops" ∧
      dumpStartsDownloads
        ([PageResp.page [sampleAsset] "" true] ++ PageResp.page [] "oops" false :: []) = false) :=
  ⟨⟨by decide, by decide⟩,
    enumeration_failure_aborts [PageResp.page [sampleAsset] "" true] [] "netdown" "oops" [] false
      (by decide) (by decide)⟩

/-- Helper: when fewer deliveries remain than are needed to reach the
total, the aggregator loop consumes them all and ends blocked on the
unclosed channel, having received exactly what was delivered. -/
theorem aggRun_short (total : Nat) (emitAt : Nat → Bool) (closed : Bool) :
    ∀ (ds : List BriefAssetResult) (n : Nat), n + ds.length < total →
      (aggRun total emitAt closed ds n).signaled = closed ∧
      (aggRun total emitAt closed ds n).received = n + ds.length := by
  intro ds
  induction ds with
  | nil => intro n _; exact ⟨rfl, rfl⟩
  | cons a rest ih =>
    intro n h
    have hlen : (a :: rest).length = rest.length + 1 := rfl
    rw [hlen] at h
    have hne : ¬ (n + 1 = total) := by omega
    have h' : (n + 1) + rest.length < total := by omega
    have hr := ih (n + 1) h'
    simp only [aggRun, if_neg hne]
    refine ⟨hr.1, ?_⟩
    rw [hr.2, hlen]
    omega

/-- Helper: with at least total deliveries available and fewer than total
already received, the aggregator loop reaches the total, signals, and has
then received exactly the total. -/
theorem aggRun_reaches (total : Nat) (emitAt : Nat → Bool) (closed : Bool) :
    ∀ (ds : List BriefAssetResult) (n : Nat), n < total → total ≤ n + ds.length →
      (aggRun total emitAt closed ds n).signaled = true ∧
      (aggRun total emitAt closed ds n).received = total := by
  intro ds
  induction ds with
  | nil =>
    intro n h1 h2
    exfalso
    simp at h2
    omega
  | cons a rest ih =>
    intro n h1 h2
    have hlen : (a :: rest).length = rest.length + 1 := rfl
    rw [hlen] at h2
    by_cases hcase : n + 1 = total
    · simp [aggRun, hcase]
    · have h1' : n + 1 < total := by omega
      have h2' : total ≤ (n + 1) + rest.length := by omega
      have hr := ih (n + 1) h1' h2'
      simp only [aggRun, if_neg hcase]
      exact hr

/-- Helper: while no more deliveries arrive than fit under the total, every
emitted progress pair has first component at most the total and second
component equal to the total. -/
theorem aggRun_emissions_bounded (total : Nat) (emitAt : Nat → Bool) (closed : Bool) :
    ∀ (ds : List BriefAssetResult) (n : Nat), n + ds.length ≤ total →
      ∀ p ∈ (aggRun total emitAt closed ds n).emissions, p.1 ≤ total ∧ p.2 = total := by
  intro ds
  induction ds with
  | nil =>
    intro n _ p hp
    simp [aggRun] at hp
  | cons a rest ih =>
    intro n h p hp
    have hlen : (a :: rest).length = rest.length + 1 := rfl
    rw [hlen] at h
    by_cases hcase : n + 1 = total
    · simp only [aggRun, if_pos hcase] at hp
      by_cases he : emitAt (n + 1) = true
      · simp [he] at hp
        subst hp
        exact ⟨by omega, rfl⟩
      · simp [he] at hp
    · simp only [aggRun, if_neg hcase] at hp
      have hmem := List.mem_append.mp hp
      rcases hmem with hl | hr
      · by_cases he : emitAt (n + 1) = true
        · simp [he] at hl
          subst hl
          exact ⟨by omega, rfl⟩
        · simp [he] at hl
      · exact ih (n + 1) (by omega) p hr

/-- C2 (amended): in a run over a nonempty catalog of K descriptors with
concurrency N at least 1 in which every fetch succeeds, the aggregator
closes the finished channel exactly upon its K-th received completion -
it signals with exactly K completions received, never fewer and never
more - and does so although the completion channel is never closed. -/
theorem aggregator_signals_exactly_at_catalog_size
    (catalog ds : assetList) (emitAt : Nat → Bool) (N : Nat)
    (hN : 1 ≤ N) (hK : 1 ≤ catalog.length)
    (hvd : validDeliveries N catalog ds) :
    (aggRun catalog.length emitAt false ds 0).signaled = true ∧
    (aggRun catalog.length emitAt false ds 0).received = catalog.length := by
  have hN0 : ¬ (N = 0) := by omega
  have hperm : ds.Perm catalog := by
    simpa [validDeliveries, hN0] using hvd
  have hlen : ds.length = catalog.length := hperm.length_eq
  exact aggRun_reaches catalog.length emitAt false ds 0 (by omega) (by omega)

/-- Counterexample for C2 as stated: for the empty catalog (K = 0, any
concurrency) every completion that will ever exist has been received -
there are none - so the received count equals K, yet the aggregator never
evaluates its termination check and never signals. -/
theorem aggregator_never_signals_on_empty_catalog :
    (aggRun (List.length ([] : assetList)) (fun _ => false) false [] 0).received
        = List.length ([] : assetList) ∧
    (aggRun (List.length ([] : assetList)) (fun _ => false) false [] 0).signaled = false := by
  exact ⟨rfl, rfl⟩

/-- Witness for the amended C2 at a one-element catalog with one worker. -/
theorem aggregator_signals_exactly_at_catalog_size_witness :
    (1 ≤ 1 ∧ 1 ≤ ([sampleAsset] : assetList).length ∧
      validDeliveries 1 [sampleAsset] [sampleAsset]) ∧
    ((aggRun ([sampleAsset] : assetList).length (fun _ => false) false [sampleAsset] 0).signaled
        = true ∧
      (aggRun ([sampleAsset] : assetList).length (fun _ => false) false [sampleAsset] 0).received
        = ([sampleAsset] : assetList).length) :=
  ⟨⟨le_refl 1, by decide, List.Perm.refl [sampleAsset]⟩,
    aggregator_signals_exactly_at_catalog_size [sampleAsset] [sampleAsset] (fun _ => false) 1
      (le_refl 1) (by decide) (List.Perm.refl [sampleAsset])⟩

/-- Helper: a completed count over a total count renders as a percentage of
at most 100 whenever the count does not exceed the total. -/
theorem percent_le_100 (a b : Nat) (hab : a ≤ b) :
    ((a : ℚ) / (b : ℚ)) * 100 ≤ 100 := by
  rcases Nat.eq_zero_or_pos b with hb | hb
  · subst hb
    have ha : a = 0 := Nat.le_zero.mp hab
    subst ha
    norm_num
  · have hbq : (0 : ℚ) < (b : ℚ) := by exact_mod_cast hb
    have h1 : (a : ℚ) / (b : ℚ) ≤ 1 := by
      rw [div_le_one hbq]
      exact_mod_cast hab
    have h2 := mul_le_mul_of_nonneg_right h1 (by norm_num : (0 : ℚ) ≤ 100)
    simpa using h2

/-- C8: every progress line the aggregator emits carries a completed count
of at most the total count and a percentage of at most 100, given that no
more completions are delivered than the catalog holds - the invariant that
the completed-list length never exceeds the catalog length at any emission
point. -/
theorem progress_lines_bounded (total : Nat) (emitAt : Nat → Bool)
    (ds : List BriefAssetResult) (h : ds.length ≤ total) :
    ((aggRun total emitAt false ds 0).emissions.all
      (fun p => decide (p.1 ≤ p.2) && decide (((p.1 : ℚ) / (p.2 : ℚ)) * 100 ≤ 100))) = true := by
  simp only [List.all_eq_true, Bool.and_eq_true, decide_eq_true_eq]
  intro p hp
  have hb := aggRun_emissions_bounded total emitAt false ds 0 (by omega) p hp
  constructor
  · rw [hb.2]
    exact hb.1
  · rw [hb.2]
    exact percent_le_100 p.1 total hb.1

/-- Witness for C8 with one delivery against a catalog of two, the
once-per-second condition always firing. -/
theorem progress_lines_bounded_witness :
    (([sampleAsset] : List BriefAssetResult).length ≤ 2) ∧
    ((aggRun 2 (fun _ => true) false [sampleAsset] 0).emissions.all
      (fun p => decide (p.1 ≤ p.2) && decide (((p.1 : ℚ) / (p.2 : ℚ)) * 100 ≤ 100))) = true :=
  ⟨by decide, progress_lines_bounded 2 (fun _ => true) [sampleAsset] (by decide)⟩

/-- C9: for an empty catalog no worker ever delivers a completion, the
completion channel is never closed, so the aggregator - which evaluates its
termination check only after a receive - never leaves its loop, the
finished signal is never sent, and Dump, blocked on the finished channel,
never returns. -/
theorem dump_never_returns_on_empty_catalog (c : Int) (emitAt : Nat → Bool)
    (ds : List BriefAssetResult)
    (h : validDeliveries (numWorkers c) [] ds) :
    dumpReturns [] emitAt ds = false := by
  have hds : ds = [] := by
    by_cases hw : numWorkers c = 0
    · simpa [validDeliveries, hw] using h
    · have hperm : ds.Perm [] := by simpa [validDeliveries, hw] using h
      exact hperm.eq_nil
  subst hds
  rfl

/-- Witness for C9 at the default concurrency 5. -/
theorem dump_never_returns_on_empty_catalog_witness :
    validDeliveries (numWorkers 5) [] [] ∧
    dumpReturns [] (fun _ => false) [] = false :=
  ⟨List.Perm.nil,
    dump_never_returns_on_empty_catalog 5 (fun _ => false) [] List.Perm.nil⟩

/-- C10: the Concurrency parameter is never validated; for a nonpositive
concurrency the worker-launch loop runs zero times, so over a nonempty
catalog no completion is ever produced, the aggregator never receives, and
Dump never returns. -/
theorem dump_never_returns_on_nonpositive_concurrency
    (c : Int) (catalog ds : assetList) (emitAt : Nat → Bool)
    (hc : c ≤ 0) (_hcat : catalog ≠ [])
    (h : validDeliveries (numWorkers c) catalog ds) :
    numWorkers c = 0 ∧ ds = [] ∧ dumpReturns catalog emitAt ds = false := by
  have hw : numWorkers c = 0 := Int.toNat_of_nonpos hc
  have hds : ds = [] := by simpa [validDeliveries, hw] using h
  subst hds
  exact ⟨hw, rfl, rfl⟩

/-- Witness for C10 at concurrency -1 over a one-element catalog. -/
theorem dump_never_returns_on_nonpositive_concurrency_witness :
    ((-1 : Int) ≤ 0 ∧ ([sampleAsset] : assetList) ≠ [] ∧
      validDeliveries (numWorkers (-1)) [sampleAsset] []) ∧
    (numWorkers (-1) = 0 ∧ ([] : List BriefAssetResult) = [] ∧
      dumpReturns [sampleAsset] (fun _ => false) [] = false) :=
  ⟨⟨by decide, by decide, rfl⟩,
    dump_never_returns_on_nonpositive_concurrency (-1) [sampleAsset] [] (fun _ => false)
      (by decide) (by decide) rfl⟩

/-- C1 evaluated at a failing input: when the rendered destination path
already exists, downloadAsset does not treat the existing entry as a
success-by-skip - it returns the absence-check error wrapping the nil stat
error - although the existing file's bytes are indeed unchanged and zero
bytes are written. The worker then calls log.Fatalf on that error and the
whole run aborts instead of counting the asset as completed. -/
theorem downloadAsset_errors_on_existing_destination :
    (downloadAsset sampleNet sampleRender "dump" sampleFS sampleAsset).result
      = FetchResult.absenceCheckFailed none ∧
    (downloadAsset sampleNet sampleRender "dump" sampleFS sampleAsset).bytesWritten = 0 ∧
    (downloadAsset sampleNet sampleRender "dump" sampleFS sampleAsset).fs "dump/p1"
      = FSEntry.file [1, 2, 3] := by
  exact ⟨rfl, rfl, rfl⟩

/-- C4 evaluated on the relevant inputs: a missing -u value or the help
flag prints the defaults and exits with status 1, and a worker fetch
failure aborts the process with the logged message; but when Dump itself
returns an error - for example a wrapped enumeration transport failure -
main discards the returned value and the process exits normally with
status 0 and no logged diagnostic, not abnormally. -/
theorem main_exits_normally_despite_dump_error :
    mainRun "" false (DumpOutcome.returned (Except.ok ())) = ProcExit.exitCode 1 ∧
    mainRun "cloudinary://x" true (DumpOutcome.returned (Except.ok ())) = ProcExit.exitCode 1 ∧
    mainRun "cloudinary://x" false (DumpOutcome.aborted "failed to handle asset a1: boom")
      = ProcExit.fatalAbort "failed to handle asset a1: boom" ∧
    mainRun "cloudinary://x" false
        (DumpOutcome.returned (Except.error "unable to collect information about assets: boom"))
      = ProcExit.exitCode 0 := by
  refine ⟨by decide, by decide, by decide, by decide⟩
